import Mathlib

/-!
MangaPlusAPI: a shallow embedding of `main.go`.

The service has one source file.  Its functions are embedded here as pure Lean
functions over an explicit state:

* the variables captured by the handler closures of `main` (`err`, `ik`, `client`);
* the contents of the collection `mangas` of database `mangaplus_dev`;
* a log of the calls issued to the two external services.

The answers of the external services (image host, document store) are inputs of
every step, collected in `Env`.  A Go run-time panic is an explicit outcome.
-/

namespace MangaPlus

/-! ## Outcomes -/

/-- Go run-time panics that the code can raise. -/
inductive Panic where
  /-- The text is `runtime error: index out of range [index] with length len`. -/
  | indexOutOfRange (index len : Nat)
  /-- The text is `runtime error: invalid memory address or nil pointer dereference`. -/
  | nilDereference
  deriving DecidableEq, Repr

/-- A computation either panics or returns. -/
inductive Outcome (α : Type) where
  | panic (p : Panic)
  | ret (a : α)
  deriving DecidableEq, Repr

/-! ## BSON documents -/

/-- Values of the fields of an image entry. -/
inductive Scalar where
  | str (s : String)
  | int (n : Int)
  deriving DecidableEq, Repr

/-- An image entry: the `bson.D` built at line 120. -/
abbrev Entry := List (String × Scalar)

/-- Values of the fields of a chapter record. -/
inductive Value where
  | str (s : String)
  | int (n : Int)
  /-- An `ObjectID`. -/
  | oid (n : Nat)
  /-- An array of embedded documents (`[]bson.D`). -/
  | docs (ds : List Entry)
  deriving DecidableEq, Repr

/-- A `bson.D`: an ordered list of key/value pairs. -/
abbrev Document := List (String × Value)

/-! ## `fmt.Sprint` and `base64.StdEncoding` -/

/-- Operands of `fmt.Sprint` that occur in the program. -/
inductive Operand where
  | int (i : Int)
  | str (s : String)
  deriving DecidableEq, Repr

/-- Formatting of one operand with the verb `%v`. -/
def Operand.format : Operand → String
  | .int i => toString i
  | .str s => s

/-- Whether the operand is of kind string. -/
def Operand.isString : Operand → Bool
  | .int _ => false
  | .str _ => true

/-- The loop of `fmt`'s `doPrint`: a space is added between two operands when
neither is a string. -/
def doPrint : Bool → Bool → List Operand → String
  | _, _, [] => ""
  | first, prevString, arg :: rest =>
    (if !first && !arg.isString && !prevString then " " else "")
      ++ arg.format ++ doPrint false arg.isString rest

/-- The function `fmt.Sprint`. -/
def Sprint (a : List Operand) : String := doPrint true false a

/-- The alphabet of `base64.StdEncoding`. -/
def encodeStd : List Char :=
  "ABCDEFGHIJKLMNOPQRSTUVWXYZabcdefghijklmnopqrstuvwxyz0123456789+/".toList

/-- The character of a 6-bit value. -/
def encodeChar (v : Nat) : Char := encodeStd.getD (v % 64) 'A'

/-- The function `base64.StdEncoding.EncodeToString` on a list of bytes (each taken
modulo 256), with `=` padding. -/
def EncodeToChars : List Nat → List Char
  | [] => []
  | [a] =>
    let a := a % 256
    [encodeChar (a / 4), encodeChar (a % 4 * 16), '=', '=']
  | [a, b] =>
    let a := a % 256
    let b := b % 256
    [encodeChar (a / 4), encodeChar (a % 4 * 16 + b / 16), encodeChar (b % 16 * 4), '=']
  | a :: b :: c :: rest =>
    let a := a % 256
    let b := b % 256
    let c := c % 256
    encodeChar (a / 4) :: encodeChar (a % 4 * 16 + b / 16)
      :: encodeChar (b % 16 * 4 + c / 64) :: encodeChar (c % 64) :: EncodeToChars rest

/-- The string form of `EncodeToChars`. -/
def EncodeToString (src : List Nat) : String := String.mk (EncodeToChars src)

/-! ## The image host -/

/-- The type `uploader.UploadParam`, with the two fields the program sets. -/
structure UploadParam where
  FileName : String
  Folder : String
  deriving DecidableEq, Repr

/-- The part of `uploader.UploadResult` the program reads. -/
structure UploadResult where
  Url : String
  Height : Int
  Width : Int
  deriving DecidableEq, Repr

/-- The type `uploader.UploadResponse`. -/
structure UploadResponse where
  Data : UploadResult
  deriving DecidableEq, Repr

/-- The client handle `*imagekit.ImageKit`, configured from `IMAGEKIT_PRIVATE_KEY`,
`IMAGEKIT_PUBLIC_KEY` and `IMAGEKIT_ENDPOINT_URL`. -/
structure ImageKit where
  PrivateKey : String
  PublicKey : String
  UrlEndpoint : String
  deriving DecidableEq, Repr

/-- The client handle `*mongo.Client`, connected to `MONGO_URI`. -/
structure Client where
  uri : String
  deriving DecidableEq, Repr

/-- The handle `*mongo.Collection`: a collection of a database. -/
structure Collection where
  database : String
  name : String
  deriving DecidableEq, Repr

/-! ## Multipart forms -/

/-- An opened `multipart.File`: what `io.ReadAll` returns on it, the bytes read and the
read error, if any. -/
structure File where
  ReadAll : List Nat × Option String
  deriving DecidableEq, Repr

/-- The type `multipart.FileHeader`.  `Open` is the pair `(src, err)` that `file.Open()`
returns; a nil `src` is `none`. -/
structure FileHeader where
  Filename : String
  ContentType : String
  Open : Option File × Option String
  deriving DecidableEq, Repr

/-- The type `multipart.Form`: two maps from field names to lists. -/
structure Form where
  Value : List (String × List String)
  File : List (String × List FileHeader)
  deriving DecidableEq, Repr

/-- Indexing of the map `form.Value`: a missing key gives the nil slice. -/
def Form.value (form : Form) (key : String) : List String :=
  (form.Value.lookup key).getD []

/-- Indexing of the map `form.File`: a missing key gives the nil slice. -/
def Form.file (form : Form) (key : String) : List FileHeader :=
  (form.File.lookup key).getD []

/-- The expression `xs[0]` on a slice. -/
def index0 (xs : List String) : Outcome String :=
  match xs with
  | [] => .panic (.indexOutOfRange 0 0)
  | x :: _ => .ret x

/-! ## State, environment, requests and responses -/

/-- A call issued to an external service. -/
inductive Call where
  /-- The call `ik.Uploader.Upload(c, file, param)`. -/
  | Upload (file : String) (param : UploadParam)
  /-- The call `coll.FindOne(ctx, filter)`. -/
  | FindOne (coll : Collection) (filter : Document)
  /-- The call `coll.InsertOne(ctx, document)`. -/
  | InsertOne (coll : Collection) (document : Document)
  deriving DecidableEq, Repr

/-- The state of a running service. -/
structure State where
  /-- The variable `err` of `main`, captured by the handlers. -/
  err : Option String
  /-- The variable `ik` of `main`; `none` is the nil pointer. -/
  ik : Option ImageKit
  /-- The variable `client` of `main`. -/
  client : Client
  /-- The documents of collection `mangas` of database `mangaplus_dev`, in insertion
  order. -/
  mangas : List Document
  /-- The calls issued to the external services so far, oldest first. -/
  calls : List Call
  deriving DecidableEq, Repr

/-- What the external services answer during one request. -/
structure Env where
  /-- The answer of the image host to an upload call. -/
  Upload : String → UploadParam → Except String UploadResponse
  /-- The failure of the lookup query (connection, decoding), if any. -/
  findErr : Option String
  /-- The failure of the insert command (connection, write error), if any. -/
  insertErr : Option String
  /-- The `ObjectID` the driver generates for a document inserted without `_id`. -/
  newId : Nat

/-- The type `mongo.InsertOneResult`. -/
structure InsertOneResult where
  InsertedID : Value
  deriving DecidableEq, Repr

/-- Values stored in a `gin.H`. -/
inductive JSON where
  | str (s : String)
  /-- A value of type `error`; `none` is nil. -/
  | error (e : Option String)
  | doc (d : Document)
  | result (r : InsertOneResult)
  deriving DecidableEq, Repr

/-- A response written with `c.JSON(status, body)`. -/
structure Response where
  status : Nat
  body : List (String × JSON)
  deriving DecidableEq, Repr

/-- An HTTP request for one of the three routes. -/
inductive Request where
  /-- The route `GET /ping`. -/
  | ping
  /-- The route `GET /manga/:slug/volumes/:volume_number/chapters/:chapter_number`. -/
  | chapter (slug volume_number chapter_number : String)
  /-- The route `POST /upload`; `form` is what `c.MultipartForm()` returns. -/
  | upload (form : Except String Form)
  deriving Repr

/-! ## The document store -/

/-- Equality filter: every pair of the filter is a field of the document. -/
def matchesFilter (filter doc : Document) : Bool :=
  filter.all fun kv => doc.lookup kv.1 == some kv.2

/-- The text of `mongo.ErrNoDocuments`. -/
def ErrNoDocuments : String := "mongo: no documents in result"

/-- The call `FindOne(ctx, filter).Decode(&chapter)`: the first document that matches,
`ErrNoDocuments` when none does, the failure of the query when it fails. -/
def FindOne (env : Env) (coll : List Document) (filter : Document) : Except String Document :=
  match env.findErr with
  | some e => .error e
  | none =>
    match coll.find? (matchesFilter filter) with
    | some doc => .ok doc
    | none => .error ErrNoDocuments

/-- The text of the duplicate key write error. -/
def ErrDuplicateKey : String := "E11000 duplicate key error"

/-- The call `InsertOne(ctx, document)`: the driver adds an `_id` to a document that has
none; the store refuses an `_id` it already holds; an accepted document is appended. -/
def InsertOne (env : Env) (coll : List Document) (document : Document) :
    Except String InsertOneResult × List Document :=
  match env.insertErr with
  | some e => (.error e, coll)
  | none =>
    let id := (document.lookup "_id").getD (.oid env.newId)
    let doc := if (document.lookup "_id").isSome then document else ("_id", id) :: document
    if coll.any (fun d => d.lookup "_id" == some id) then (.error ErrDuplicateKey, coll)
    else (.ok ⟨id⟩, coll ++ [doc])

/-! ## Functions of `main.go` -/

/-- Lines 23-34.  `Connect` is what `mongo.Connect` returns. -/
def ConnectToMongoDB (Connect : Except String Client) : Except String Client :=
  match Connect with
  | .error err => .error err
  | .ok client => .ok client

/-- Lines 36-43.  `New` is what `imagekit.New` returns. -/
def IntializeImageKit (New : Except String ImageKit) : Except String ImageKit :=
  match New with
  | .error err => .error err
  | .ok ik => .ok ik

/-- Lines 56-58. -/
def MongoCollection (_client : Client) (collectionName : String) : Collection :=
  { database := "mangaplus_dev", name := collectionName }

/-- Lines 60-62. -/
def Manga (client : Client) : Collection := MongoCollection client "mangas"

/-- Lines 45-54.  Returns the calls issued to the image host and the outcome.  The
errors of `file.Open()` and `io.ReadAll(src)` are assigned to `err` and overwritten;
only the error of the upload call is tested. -/
def UploadFile (env : Env) (file : FileHeader) (filename : String) (ik : Option ImageKit) :
    List Call × Outcome (Except String UploadResponse) :=
  -- src, err := file.Open()
  match file.Open.1 with
  | none => ([], .panic .nilDereference)          -- io.ReadAll on a nil reader
  | some src =>
    -- fileBytes, err := io.ReadAll(src)
    let fileBytes := src.ReadAll.1
    let base64String := EncodeToString fileBytes
    match ik with
    | none => ([], .panic .nilDereference)        -- ik.Uploader on a nil pointer
    | some _ =>
      let param : UploadParam := { FileName := filename, Folder := "/MangaPlus" }
      -- resp, err := ik.Uploader.Upload(c, base64String, param)
      match env.Upload base64String param with
      | .error err => ([.Upload base64String param], .ret (.error err))
      | .ok resp => ([.Upload base64String param], .ret (.ok resp))

/-- The filename of line 112: `fmt.Sprint(index, ".jpg")`. -/
def filenameFor (index : Nat) : String := Sprint [.int index, .str ".jpg"]

/-- The `bson.D` of line 120. -/
def manga_data (response : UploadResponse) : Entry :=
  [("url", .str response.Data.Url), ("height", .int response.Data.Height),
   ("width", .int response.Data.Width)]

/-- How the loop of lines 111-122 ends. -/
inductive LoopEnd where
  /-- All files were uploaded; the value of `responses`. -/
  | done (responses : List Entry)
  /-- An upload failed: the response written before `return`. -/
  | abort (resp : Response)
  /-- A panic. -/
  | panic (p : Panic)
  deriving DecidableEq, Repr

/-- Lines 111-122, from position `index` on, with the value of `responses` so far.
Returns the calls issued and how the loop ends. -/
def uploadLoop (env : Env) (ik : Option ImageKit) :
    Nat → List FileHeader → List Entry → List Call × LoopEnd
  | _, [], responses => ([], .done responses)
  | index, file :: rest, responses =>
    match UploadFile env file (filenameFor index) ik with
    | (cs, .panic p) => (cs, .panic p)
    | (cs, .ret (.error err)) =>
      (cs, .abort ⟨400, [("message", .str "Error uploading file"), ("error", .str err)]⟩)
    | (cs, .ret (.ok response)) =>
      let r := uploadLoop env ik (index + 1) rest (responses ++ [manga_data response])
      (cs ++ r.1, r.2)

/-- The handler of `GET /ping`, lines 79-84. -/
def pingHandler (s : State) : Outcome Response × State :=
  (.ret ⟨200, [("message", .str "You reached the server"), ("errors", .error s.err)]⟩, s)

/-- The handler of the chapter route, lines 86-97.  The path parameter `slug` is not
read. -/
def chapterHandler (env : Env) (s : State) (_slug volume_number chapter_number : String) :
    Outcome Response × State :=
  let query : Document :=
    [("chapter_number", .str chapter_number), ("volume_number", .str volume_number)]
  -- err = Manga(client).FindOne(context.TODO(), query).Decode(&chapter)
  match FindOne env s.mangas query with
  | .error e =>
    (.ret ⟨500, [("error", .str e)]⟩,
      { s with err := some e, calls := s.calls ++ [.FindOne (Manga s.client) query] })
  | .ok chapter =>
    (.ret ⟨200, [("chapter", .doc chapter)]⟩,
      { s with err := none, calls := s.calls ++ [.FindOne (Manga s.client) query] })

/-- The handler of `POST /upload`, lines 99-130.  Its `err` is a variable of its own. -/
def uploadHandler (env : Env) (s : State) (parsed : Except String Form) :
    Outcome Response × State :=
  match parsed with
  | .error _ => (.ret ⟨400, [("message", .str "Error parsing form")]⟩, s)
  | .ok form =>
    let files := form.file "files"
    match index0 (form.value "chapter_number") with
    | .panic p => (.panic p, s)
    | .ret chapter_number =>
    match index0 (form.value "volume_number") with
    | .panic p => (.panic p, s)
    | .ret volume_number =>
    match uploadLoop env s.ik 0 files [] with
    | (cs, .panic p) => (.panic p, { s with calls := s.calls ++ cs })
    | (cs, .abort resp) => (.ret resp, { s with calls := s.calls ++ cs })
    | (cs, .done responses) =>
      let data : Document :=
        [("data", .docs responses), ("volume_number", .str volume_number),
         ("chapter_number", .str chapter_number)]
      let calls := s.calls ++ cs ++ [.InsertOne (Manga s.client) data]
      match InsertOne env s.mangas data with
      | (.error e, coll) =>
        (.ret ⟨500, [("error", .str e)]⟩, { s with mangas := coll, calls := calls })
      | (.ok result, coll) =>
        (.ret ⟨200, [("message", .str "success"), ("responses", .result result)]⟩,
          { s with mangas := coll, calls := calls })

/-- The router: each request goes to the handler of its route. -/
def handle (env : Env) (s : State) : Request → Outcome Response × State
  | .ping => pingHandler s
  | .chapter slug volume_number chapter_number =>
    chapterHandler env s slug volume_number chapter_number
  | .upload form => uploadHandler env s form

/-- The state after a sequential run of requests, each with the answers of the external
services during it.  A panic of a handler is recovered by the router. -/
def run (s : State) : List (Env × Request) → State
  | [] => s
  | (env, req) :: rest => run (handle env s req).2 rest

/-- How `main` ends its start-up. -/
inductive Startup where
  /-- The call `panic(err)` of line 75: the process terminates. -/
  | fatal (err : String)
  /-- The routes are registered and the server runs, in this state. -/
  | serving (s : State)
  deriving DecidableEq, Repr

/-- Lines 70-77 of `main`.  `Load`, `New` and `Connect` are what `godotenv.Load`,
`imagekit.New` and `mongo.Connect` return; `mangas` is the content of the collection. -/
def main (Load : Option String) (New : Except String ImageKit)
    (Connect : Except String Client) (mangas : List Document) : Startup :=
  -- err := godotenv.Load()
  let _err := Load
  -- ik, err := IntializeImageKit()
  let ik := (IntializeImageKit New).toOption
  -- client, err := ConnectToMongoDB(); if err != nil { panic(err) }
  match ConnectToMongoDB Connect with
  | .error err => .fatal err
  | .ok client => .serving { err := none, ik := ik, client := client, mangas := mangas, calls := [] }

/-! ## Observations used in the statements -/

/-- The bytes that `UploadFile` reads from a file whose `Open` gives a reader. -/
def bytesOf (file : FileHeader) : List Nat :=
  match file.Open.1 with
  | some src => src.ReadAll.1
  | none => []

/-- The upload call expected for the file at position `index`. -/
def uploadCall (index : Nat) (file : FileHeader) : Call :=
  .Upload (EncodeToString (bytesOf file))
    { FileName := Nat.repr index ++ ".jpg", Folder := "/MangaPlus" }

/-- The upload calls expected for a list of files that starts at position `index`. -/
def uploadCalls : Nat → List FileHeader → List Call
  | _, [] => []
  | index, file :: rest => uploadCall index file :: uploadCalls (index + 1) rest

/-- Whether the store accepts an insert of a document without `_id`: the command does
not fail and the generated `_id` is not held yet. -/
def accepts (env : Env) (coll : List Document) : Bool :=
  env.insertErr.isNone && !coll.any (fun d => d.lookup "_id" == some (.oid env.newId))

/-- Whether a document has the given volume and chapter identifiers. -/
def isChapter (volume_number chapter_number : String) (d : Document) : Prop :=
  d.lookup "chapter_number" = some (.str chapter_number) ∧
    d.lookup "volume_number" = some (.str volume_number)

/-- The image entries of a document: the array under key `data`. -/
def imageEntries (d : Document) : List Entry :=
  match d.lookup "data" with
  | some (.docs ds) => ds
  | _ => []

/-- The error a chapter lookup for volume `v`, chapter `c` leaves on a collection: nil on
a match. -/
def lookupErr (env : Env) (coll : List Document) (v c : String) : Option String :=
  match FindOne env coll [("chapter_number", .str c), ("volume_number", .str v)] with
  | .ok _ => none
  | .error e => some e

/-- Whether a request is for the chapter route. -/
def Request.isLookup : Request → Bool
  | .chapter _ _ _ => true
  | _ => false

/-! ## Sample inputs -/

/-- A file that opens and reads without error. -/
def sampleFile (name : String) (bytes : List Nat) : FileHeader :=
  { Filename := name, ContentType := "image/png", Open := (some ⟨(bytes, none)⟩, none) }

/-- A form with two files, chapter `5` and volume `1`. -/
def sampleForm : Form :=
  { Value := [("chapter_number", ["5"]), ("volume_number", ["1"])],
    File := [("files", [sampleFile "a.png" [77], sampleFile "b.png" [97, 110]])] }

/-- The response of the sample image host to the file at a position. -/
def sampleResp (i : Nat) : UploadResponse :=
  ⟨⟨"https://ik.example/MangaPlus/" ++ filenameFor i, 1200, 800⟩⟩

/-- An environment in which every call succeeds. -/
def sampleEnv : Env :=
  { Upload := fun _ param => .ok ⟨⟨"https://ik.example/MangaPlus/" ++ param.FileName, 1200, 800⟩⟩,
    findErr := none, insertErr := none, newId := 7 }

/-- An environment in which the image host refuses the file named `1.jpg`. -/
def quotaEnv : Env :=
  { sampleEnv with
    Upload := fun _ param =>
      if param.FileName = "1.jpg" then .error "quota exceeded"
      else .ok ⟨⟨"https://ik.example/MangaPlus/" ++ param.FileName, 1200, 800⟩⟩ }

/-- A running service with both clients and an empty collection. -/
def sampleState : State :=
  { err := none, ik := some ⟨"private", "public", "https://ik.example"⟩,
    client := ⟨"mongodb://localhost"⟩, mangas := [], calls := [] }

/-- A record for volume `1`, chapter `5` without images. -/
def staleRecord : Document :=
  [("_id", .oid 1), ("data", .docs []), ("volume_number", .str "1"),
   ("chapter_number", .str "5")]

/-- A running service whose collection holds `staleRecord`. -/
def staleState : State := { sampleState with mangas := [staleRecord] }

/-- A file whose read fails after one byte. -/
def truncatedFile : FileHeader :=
  { Filename := "a.png", ContentType := "image/png",
    Open := (some ⟨([77], some "unexpected EOF")⟩, none) }

/-- A file whose `Open` fails and leaves a reader on which every read fails. -/
def unopenedFile : FileHeader :=
  { Filename := "a.png", ContentType := "image/png",
    Open := (some ⟨([], some "invalid argument")⟩, some "open /tmp/multipart-1: no such file") }

/-- A file whose `Open` fails and leaves a nil reader. -/
def nilFile : FileHeader :=
  { Filename := "a.png", ContentType := "image/png",
    Open := (none, some "open /tmp/multipart-1: no such file") }

/-- The state in which `main` serves when only `imagekit.New` has failed. -/
def clientlessState : State :=
  { err := none, ik := none, client := ⟨"mongodb://localhost"⟩, mangas := [], calls := [] }

/-! ## Decimal numerals -/

/-- The value of a decimal numeral, read from the left on top of `acc`. -/
def decimalValue (acc : Nat) (cs : List Char) : Nat :=
  cs.foldl (fun a c => 10 * a + (c.toNat - 48)) acc

theorem digitChar_value (k : Nat) (hk : k < 10) : (Nat.digitChar k).toNat - 48 = k := by
  interval_cases k <;> rfl

theorem toDigitsCore_append (fuel : Nat) :
    ∀ (n : Nat) (ds : List Char),
      Nat.toDigitsCore 10 fuel n ds = Nat.toDigitsCore 10 fuel n [] ++ ds := by
  induction fuel with
  | zero => intro n ds; simp [Nat.toDigitsCore]
  | succ fuel ih =>
    intro n ds
    simp only [Nat.toDigitsCore]
    split
    · simp
    · rw [ih (n / 10) (Nat.digitChar (n % 10) :: ds), ih (n / 10) [Nat.digitChar (n % 10)]]
      simp

theorem decimalValue_toDigitsCore (fuel : Nat) :
    ∀ n : Nat, n < fuel → decimalValue 0 (Nat.toDigitsCore 10 fuel n []) = n := by
  induction fuel with
  | zero => intro n h; omega
  | succ fuel ih =>
    intro n h
    simp only [Nat.toDigitsCore]
    split
    · rename_i h0
      have hlt : n < 10 := by omega
      simp [decimalValue, digitChar_value n hlt, Nat.mod_eq_of_lt hlt]
    · rename_i h0
      rw [toDigitsCore_append]
      have hfuel : n / 10 < fuel := by omega
      have hrec := ih (n / 10) hfuel
      simp only [decimalValue] at hrec
      simp only [decimalValue, List.foldl_append, List.foldl_cons, List.foldl_nil, hrec]
      rw [digitChar_value (n % 10) (Nat.mod_lt _ (by decide))]
      omega

theorem decimalValue_repr (n : Nat) : decimalValue 0 (Nat.repr n).data = n := by
  simp only [Nat.repr, Nat.toDigits, List.asString]
  exact decimalValue_toDigitsCore (n + 1) n (Nat.lt_succ_self n)

theorem repr_injective (i j : Nat) (h : Nat.repr i = Nat.repr j) : i = j := by
  have hi := decimalValue_repr i
  rw [h, decimalValue_repr j] at hi
  exact hi.symm

theorem filenameFor_eq (index : Nat) : filenameFor index = Nat.repr index ++ ".jpg" := by
  simp [filenameFor, Sprint, doPrint, Operand.format, Operand.isString]
  rfl

/-! ## The upload loop -/

theorem uploadCalls_length (files : List FileHeader) :
    ∀ n, (uploadCalls n files).length = files.length := by
  induction files with
  | nil => intro n; rfl
  | cons f fs ih => intro n; simp [uploadCalls, ih]

theorem uploadCalls_getElem? (files : List FileHeader) :
    ∀ n i, (uploadCalls n files)[i]? = (files[i]?).map (uploadCall (n + i)) := by
  induction files with
  | nil => intro n i; simp [uploadCalls]
  | cons f fs ih =>
    intro n i
    cases i with
    | zero => simp [uploadCalls]
    | succ i =>
      simp only [uploadCalls, List.getElem?_cons_succ, ih]
      rw [show n + 1 + i = n + (i + 1) by omega]

theorem UploadFile_calls (env : Env) (file : FileHeader) (name : String)
    (ik : Option ImageKit) (r : Except String UploadResponse)
    (h : (UploadFile env file name ik).2 = .ret r) :
    (UploadFile env file name ik).1 =
      [.Upload (EncodeToString (bytesOf file)) { FileName := name, Folder := "/MangaPlus" }] := by
  unfold UploadFile at h ⊢
  unfold bytesOf
  cases hO : file.Open.1 with
  | none => simp [hO] at h
  | some src =>
    cases ik with
    | none => simp [hO] at h
    | some k =>
      simp only [hO]
      split <;> rfl

theorem UploadFile_calls_index (env : Env) (file : FileHeader) (index : Nat)
    (ik : Option ImageKit) (r : Except String UploadResponse)
    (h : (UploadFile env file (filenameFor index) ik).2 = .ret r) :
    (UploadFile env file (filenameFor index) ik).1 = [uploadCall index file] := by
  rw [UploadFile_calls env file _ ik r h, filenameFor_eq]
  rfl

theorem uploadLoop_done (env : Env) (ik : Option ImageKit) (resp : Nat → UploadResponse)
    (files : List FileHeader) :
    ∀ (n : Nat) (acc : List Entry),
      (∀ i f, files[i]? = some f →
        (UploadFile env f (filenameFor (n + i)) ik).2 = .ret (.ok (resp (n + i)))) →
      uploadLoop env ik n files acc =
        (uploadCalls n files,
          .done (acc ++ (List.range files.length).map fun i => manga_data (resp (n + i)))) := by
  induction files with
  | nil => intro n acc _; simp [uploadLoop, uploadCalls]
  | cons f fs ih =>
    intro n acc h
    have h0 := h 0 f (by simp)
    simp only [Nat.add_zero] at h0
    have hc := UploadFile_calls_index env f n ik _ h0
    have hrest := ih (n + 1) (acc ++ [manga_data (resp n)]) (by
      intro i g hg
      have := h (i + 1) g (by simpa using hg)
      rwa [show n + (i + 1) = n + 1 + i by omega] at this)
    rw [uploadLoop]
    rw [show UploadFile env f (filenameFor n) ik
        = ((UploadFile env f (filenameFor n) ik).1, (UploadFile env f (filenameFor n) ik).2)
        from rfl, h0, hc]
    simp only [hrest, uploadCalls, List.singleton_append, List.length_cons]
    rw [List.range_succ_eq_map]
    simp only [List.map_cons, List.map_map, Nat.add_zero, List.append_assoc,
      List.singleton_append]
    congr 4
    apply List.map_congr_left
    intro i _
    simp only [Function.comp]
    rw [show n + 1 + i = n + i.succ by omega]

theorem uploadLoop_abort (env : Env) (ik : Option ImageKit) (files : List FileHeader) :
    ∀ (n : Nat) (acc : List Entry) (k : Nat) (fk : FileHeader) (e : String),
      files[k]? = some fk →
      (∀ i f, i < k → files[i]? = some f →
        ∃ r, (UploadFile env f (filenameFor (n + i)) ik).2 = .ret (.ok r)) →
      (UploadFile env fk (filenameFor (n + k)) ik).2 = .ret (.error e) →
      uploadLoop env ik n files acc =
        (uploadCalls n (files.take (k + 1)),
          .abort ⟨400, [("message", .str "Error uploading file"), ("error", .str e)]⟩) := by
  induction files with
  | nil => intro n acc k fk e hk; simp at hk
  | cons f fs ih =>
    intro n acc k fk e hk hbefore hfail
    cases k with
    | zero =>
      simp only [List.getElem?_cons_zero, Option.some.injEq] at hk
      subst hk
      simp only [Nat.add_zero] at hfail
      have hc := UploadFile_calls_index env f n ik _ hfail
      rw [uploadLoop]
      rw [show UploadFile env f (filenameFor n) ik
          = ((UploadFile env f (filenameFor n) ik).1, (UploadFile env f (filenameFor n) ik).2)
          from rfl, hfail, hc]
      simp [uploadCalls]
    | succ k =>
      obtain ⟨r, hr⟩ := hbefore 0 f (Nat.succ_pos k) (by simp)
      simp only [Nat.add_zero] at hr
      have hc := UploadFile_calls_index env f n ik _ hr
      have hrest := ih (n + 1) (acc ++ [manga_data r]) k fk e (by simpa using hk)
        (by
          intro i g hi hg
          have := hbefore (i + 1) g (by omega) (by simpa using hg)
          rwa [show n + (i + 1) = n + 1 + i by omega] at this)
        (by rwa [show n + (k + 1) = n + 1 + k by omega] at hfail)
      rw [uploadLoop]
      rw [show UploadFile env f (filenameFor n) ik
          = ((UploadFile env f (filenameFor n) ik).1, (UploadFile env f (filenameFor n) ik).2)
          from rfl, hr, hc]
      simp [hrest, uploadCalls]

theorem UploadFile_calls_cases (env : Env) (file : FileHeader) (index : Nat)
    (ik : Option ImageKit) :
    (UploadFile env file (filenameFor index) ik).1 = [] ∨
      (UploadFile env file (filenameFor index) ik).1 = [uploadCall index file] := by
  cases h : (UploadFile env file (filenameFor index) ik).2 with
  | ret r => exact Or.inr (UploadFile_calls_index env file index ik r h)
  | panic p =>
    left
    unfold UploadFile at h ⊢
    cases hO : file.Open.1 with
    | none => simp
    | some src =>
      cases ik with
      | none => simp
      | some k =>
        simp only [hO] at h
        split at h <;> simp at h

theorem uploadLoop_calls (env : Env) (ik : Option ImageKit) (files : List FileHeader) :
    ∀ (n : Nat) (acc : List Entry) (j : Nat) (call : Call),
      (uploadLoop env ik n files acc).1[j]? = some call →
      ∃ f, files[j]? = some f ∧ call = uploadCall (n + j) f := by
  induction files with
  | nil => intro n acc j call h; simp [uploadLoop] at h
  | cons f fs ih =>
    intro n acc j call h
    have hcases := UploadFile_calls_cases env f n ik
    rw [uploadLoop] at h
    cases hO : (UploadFile env f (filenameFor n) ik).2 with
    | panic p =>
      rw [show UploadFile env f (filenameFor n) ik
          = ((UploadFile env f (filenameFor n) ik).1, (UploadFile env f (filenameFor n) ik).2)
          from rfl, hO] at h
      simp only at h
      rcases hcases with hc | hc
      · rw [hc] at h; simp at h
      · rw [hc] at h
        cases j with
        | zero => simp at h; exact ⟨f, by simp, h.symm⟩
        | succ j => simp at h
    | ret r =>
      have hc := UploadFile_calls_index env f n ik r hO
      rw [show UploadFile env f (filenameFor n) ik
          = ((UploadFile env f (filenameFor n) ik).1, (UploadFile env f (filenameFor n) ik).2)
          from rfl, hO, hc] at h
      cases r with
      | error e =>
        simp only at h
        cases j with
        | zero => simp at h; exact ⟨f, by simp, h.symm⟩
        | succ j => simp at h
      | ok response =>
        simp only at h
        cases j with
        | zero => simp at h; exact ⟨f, by simp, h.symm⟩
        | succ j =>
          simp only [List.singleton_append, List.getElem?_cons_succ] at h
          obtain ⟨g, hg, hcall⟩ := ih (n + 1) _ j call h
          refine ⟨g, by simpa using hg, ?_⟩
          rw [hcall, show n + 1 + j = n + (j + 1) by omega]

theorem uploadCalls_no_insert (files : List FileHeader) :
    ∀ (n : Nat) (coll : Collection) (d : Document), Call.InsertOne coll d ∉ uploadCalls n files := by
  induction files with
  | nil => intro n coll d; simp [uploadCalls]
  | cons f fs ih =>
    intro n coll d
    simp only [uploadCalls, List.mem_cons, not_or]
    exact ⟨by simp [uploadCall], ih (n + 1) coll d⟩

theorem UploadFile_panic (env : Env) (file : FileHeader) (name : String)
    (ik : Option ImageKit) (p : Panic) (h : (UploadFile env file name ik).2 = .panic p) :
    p = .nilDereference := by
  unfold UploadFile at h
  cases hO : file.Open.1 with
  | none => simp [hO] at h; exact h.symm
  | some src =>
    cases ik with
    | none => simp [hO] at h; exact h.symm
    | some k =>
      simp only [hO] at h
      split at h <;> simp at h

theorem uploadLoop_panic (env : Env) (ik : Option ImageKit) (files : List FileHeader) :
    ∀ (n : Nat) (acc : List Entry) (p : Panic),
      (uploadLoop env ik n files acc).2 = .panic p → p = .nilDereference := by
  induction files with
  | nil => intro n acc p h; simp [uploadLoop] at h
  | cons f fs ih =>
    intro n acc p h
    rw [uploadLoop] at h
    cases hO : (UploadFile env f (filenameFor n) ik).2 with
    | panic q =>
      rw [show UploadFile env f (filenameFor n) ik
          = ((UploadFile env f (filenameFor n) ik).1, (UploadFile env f (filenameFor n) ik).2)
          from rfl, hO] at h
      simp only [LoopEnd.panic.injEq] at h
      subst h
      exact UploadFile_panic env f _ ik q hO
    | ret r =>
      rw [show UploadFile env f (filenameFor n) ik
          = ((UploadFile env f (filenameFor n) ik).1, (UploadFile env f (filenameFor n) ik).2)
          from rfl, hO] at h
      cases r with
      | error e => simp at h
      | ok response => exact ih (n + 1) _ p h

theorem InsertOne_record (env : Env) (coll : List Document) (entries : List Entry)
    (v c : String) :
    InsertOne env coll
        [("data", .docs entries), ("volume_number", .str v), ("chapter_number", .str c)] =
      if accepts env coll = true then
        (.ok ⟨.oid env.newId⟩,
          coll ++ [[("_id", .oid env.newId), ("data", .docs entries),
            ("volume_number", .str v), ("chapter_number", .str c)]])
      else (.error (env.insertErr.getD ErrDuplicateKey), coll) := by
  have hid : List.lookup "_id"
      ([("data", .docs entries), ("volume_number", .str v), ("chapter_number", .str c)] :
        Document) = none := by
    simp [List.lookup]
  unfold InsertOne accepts
  rw [hid]
  cases hE : env.insertErr with
  | some e => simp
  | none =>
    simp only [Option.getD_none, Option.isSome_none, Bool.false_eq_true, if_false,
      Option.isNone_none, Bool.true_and, Bool.not_eq_true']
    cases hA : coll.any (fun d => d.lookup "_id" == some (.oid env.newId)) <;> simp

/-! ## Claims about `POST /upload` -/

/-- C1: when the form is parsed, `chapter_number` and `volume_number` are present and
every one of the N files uploads successfully, the handler of `POST /upload` issues the
N upload calls and then exactly one insert, of a record whose `data` list has length N,
whose i-th entry is the url, height and width of the i-th upload response, and whose
`volume_number` and `chapter_number` are the first values of the form fields; a store
that accepts the insert gains exactly that record. -/
theorem upload_all_succeed_inserts_one_record (env : Env) (s : State) (form : Form)
    (c v : String) (cs vs : List String) (resp : Nat → UploadResponse)
    (hc : form.value "chapter_number" = c :: cs)
    (hv : form.value "volume_number" = v :: vs)
    (hup : ∀ i f, (form.file "files")[i]? = some f →
      (UploadFile env f (filenameFor i) s.ik).2 = .ret (.ok (resp i))) :
    ∃ entries : List Entry,
      entries.length = (form.file "files").length ∧
      (∀ i, i < (form.file "files").length →
        entries[i]? = some [("url", .str (resp i).Data.Url),
          ("height", .int (resp i).Data.Height), ("width", .int (resp i).Data.Width)]) ∧
      (uploadHandler env s (.ok form)).2.calls =
        s.calls ++ uploadCalls 0 (form.file "files") ++
          [.InsertOne (Manga s.client) [("data", .docs entries), ("volume_number", .str v),
            ("chapter_number", .str c)]] ∧
      (∀ coll d, Call.InsertOne coll d ∉ uploadCalls 0 (form.file "files")) ∧
      (accepts env s.mangas = true →
        (uploadHandler env s (.ok form)).2.mangas =
          s.mangas ++ [[("_id", .oid env.newId), ("data", .docs entries),
            ("volume_number", .str v), ("chapter_number", .str c)]] ∧
        (uploadHandler env s (.ok form)).1 =
          .ret ⟨200, [("message", .str "success"),
            ("responses", .result ⟨.oid env.newId⟩)]⟩) ∧
      (accepts env s.mangas = false →
        (uploadHandler env s (.ok form)).2.mangas = s.mangas ∧
        ∃ e, (uploadHandler env s (.ok form)).1 = .ret ⟨500, [("error", .str e)]⟩) := by
  have hloop := uploadLoop_done env s.ik resp (form.file "files") 0 [] (by
    intro i f hf
    simpa using hup i f hf)
  simp only [Nat.zero_add, List.nil_append] at hloop
  refine ⟨(List.range (form.file "files").length).map fun i => manga_data (resp i),
    by simp, ?_, ?_, uploadCalls_no_insert _ 0, ?_, ?_⟩
  · intro i hi
    simp [List.getElem?_map, List.getElem?_range hi, manga_data]
  · simp only [uploadHandler, hc, hv, index0, hloop, InsertOne_record]
    split <;> rfl
  · intro ha
    simp [uploadHandler, hc, hv, index0, hloop, InsertOne_record, ha]
  · intro ha
    simp [uploadHandler, hc, hv, index0, hloop, InsertOne_record, ha]

theorem upload_all_succeed_inserts_one_record_witness :
    sampleForm.value "chapter_number" = ["5"] ∧
    sampleForm.value "volume_number" = ["1"] ∧
    (∀ i f, (sampleForm.file "files")[i]? = some f →
      (UploadFile sampleEnv f (filenameFor i) sampleState.ik).2 = .ret (.ok (sampleResp i))) ∧
    ∃ entries : List Entry, entries.length = 2 ∧
      (uploadHandler sampleEnv sampleState (.ok sampleForm)).2.mangas =
        [[("_id", .oid 7), ("data", .docs entries), ("volume_number", .str "1"),
          ("chapter_number", .str "5")]] :=
  have hup : ∀ i f, (sampleForm.file "files")[i]? = some f →
      (UploadFile sampleEnv f (filenameFor i) sampleState.ik).2 =
        .ret (.ok (sampleResp i)) := by
    intro i f hf
    match i, hf with
    | 0, hf => cases hf; rfl
    | 1, hf => cases hf; rfl
    | n + 2, hf => simp [sampleForm, Form.file, List.lookup] at hf
  ⟨rfl, rfl, hup, by
    obtain ⟨entries, hl, _, _, _, hacc, _⟩ :=
      upload_all_succeed_inserts_one_record sampleEnv sampleState sampleForm "5" "1" [] []
        sampleResp rfl rfl hup
    exact ⟨entries, hl, (hacc rfl).1⟩⟩

/-- C2: when the form is parsed with both fields present and the file at position k is
the first whose upload fails, the handler of `POST /upload` answers 400 with that
upload's error text, leaves the collection as it was, issues no insert, and has issued
exactly the upload calls of the files at positions 0..k, in order, and none after. -/
theorem upload_first_failure_aborts (env : Env) (s : State) (form : Form)
    (c v : String) (cs vs : List String) (k : Nat) (fk : FileHeader) (e : String)
    (hc : form.value "chapter_number" = c :: cs)
    (hv : form.value "volume_number" = v :: vs)
    (hk : (form.file "files")[k]? = some fk)
    (hbefore : ∀ i f, i < k → (form.file "files")[i]? = some f →
      ∃ r, (UploadFile env f (filenameFor i) s.ik).2 = .ret (.ok r))
    (hfail : (UploadFile env fk (filenameFor k) s.ik).2 = .ret (.error e)) :
    (uploadHandler env s (.ok form)).1 =
      .ret ⟨400, [("message", .str "Error uploading file"), ("error", .str e)]⟩ ∧
    (uploadHandler env s (.ok form)).2.mangas = s.mangas ∧
    ∃ ups : List Call,
      (uploadHandler env s (.ok form)).2.calls = s.calls ++ ups ∧
      ups.length = k + 1 ∧
      (∀ i f, i ≤ k → (form.file "files")[i]? = some f →
        ups[i]? = some (.Upload (EncodeToString (bytesOf f))
          { FileName := Nat.repr i ++ ".jpg", Folder := "/MangaPlus" })) ∧
      (∀ coll d, Call.InsertOne coll d ∉ ups) := by
  have hloop := uploadLoop_abort env s.ik (form.file "files") 0 [] k fk e hk
    (by intro i f hi hf; simpa using hbefore i f hi hf) (by simpa using hfail)
  have hlt : k < (form.file "files").length := by
    rcases Nat.lt_or_ge k (form.file "files").length with h | h
    · exact h
    · rw [List.getElem?_eq_none h] at hk; cases hk
  refine ⟨?_, ?_, (uploadCalls 0 ((form.file "files").take (k + 1))), ?_, ?_, ?_,
    uploadCalls_no_insert _ 0⟩
  · simp [uploadHandler, hc, hv, index0, hloop]
  · simp [uploadHandler, hc, hv, index0, hloop]
  · simp [uploadHandler, hc, hv, index0, hloop]
  · rw [uploadCalls_length, List.length_take]
    omega
  · intro i f hi hf
    rw [uploadCalls_getElem?, List.getElem?_take_of_lt (by omega), hf]
    simp [uploadCall]

theorem upload_first_failure_aborts_witness :
    (uploadHandler quotaEnv sampleState (.ok sampleForm)).1 =
      .ret ⟨400, [("message", .str "Error uploading file"),
        ("error", .str "quota exceeded")]⟩ ∧
    (uploadHandler quotaEnv sampleState (.ok sampleForm)).2.mangas = [] ∧
    ∃ ups : List Call,
      (uploadHandler quotaEnv sampleState (.ok sampleForm)).2.calls = [] ++ ups ∧
      ups.length = 1 + 1 ∧
      (∀ i f, i ≤ 1 → (sampleForm.file "files")[i]? = some f →
        ups[i]? = some (.Upload (EncodeToString (bytesOf f))
          { FileName := Nat.repr i ++ ".jpg", Folder := "/MangaPlus" })) ∧
      (∀ coll d, Call.InsertOne coll d ∉ ups) :=
  upload_first_failure_aborts quotaEnv sampleState sampleForm "5" "1" [] [] 1
    (sampleFile "b.png" [97, 110]) "quota exceeded" rfl rfl rfl
    (by
      intro i f hi hf
      match i, hi, hf with
      | 0, _, hf => cases hf; exact ⟨_, rfl⟩)
    rfl

/-- C6: on a parsed form, the handler of `POST /upload` panics with an index out of
range (index 0, length 0) exactly when `chapter_number` or `volume_number` is missing
from the form values or has an empty list; the panic leaves the state as it was (no
upload call, no insert) and no response, so no 400, has been written. -/
theorem upload_index_panic_iff_field_missing (env : Env) (s : State) (form : Form) :
    ((uploadHandler env s (.ok form)).1 = .panic (.indexOutOfRange 0 0) ↔
      (form.Value.lookup "chapter_number" = none ∨
        form.Value.lookup "chapter_number" = some [] ∨
        form.Value.lookup "volume_number" = none ∨
        form.Value.lookup "volume_number" = some [])) ∧
    ((uploadHandler env s (.ok form)).1 = .panic (.indexOutOfRange 0 0) →
      (uploadHandler env s (.ok form)).2 = s ∧
      ∀ resp, (uploadHandler env s (.ok form)).1 ≠ .ret resp) := by
  unfold uploadHandler Form.value
  cases hc : form.Value.lookup "chapter_number" with
  | none => simp [index0, hc]
  | some lc =>
    cases lc with
    | nil => simp [index0, hc]
    | cons c cs =>
      cases hv : form.Value.lookup "volume_number" with
      | none => simp [index0, hc, hv]
      | some lv =>
        cases lv with
        | nil => simp [index0, hc, hv]
        | cons v vs =>
          simp only [hc, hv, Option.getD_some, index0]
          have hp := uploadLoop_panic env s.ik (form.file "files") 0 []
          cases hl : uploadLoop env s.ik 0 (form.file "files") [] with
          | mk calls fin =>
            rw [hl] at hp
            cases fin with
            | panic p =>
              have := hp p rfl
              subst this
              simp
            | abort resp => simp
            | done responses =>
              simp only
              split <;> simp

theorem filenameFor_injective (i j : Nat) (h : filenameFor i = filenameFor j) : i = j := by
  rw [filenameFor_eq, filenameFor_eq] at h
  have hd := congrArg String.data h
  simp only [String.data_append] at hd
  exact repr_injective i j (String.ext (List.append_cancel_right hd))

/-- C8: the filename the handler of `POST /upload` hands to `UploadFile` for the file at
position i is the decimal numeral of i followed by `.jpg`; distinct positions get
distinct filenames; and every upload call the handler issues is, at position j of the
request's calls, the call for the j-th submitted file under the name `j.jpg` in folder
`/MangaPlus`, whatever the file's own name and content type. -/
theorem upload_filename_is_position (env : Env) (s : State) (form : Form) :
    (filenameFor 0 = "0.jpg" ∧ filenameFor 1 = "1.jpg" ∧ filenameFor 10 = "10.jpg") ∧
    (∀ i, filenameFor i = Nat.repr i ++ ".jpg") ∧
    (∀ i j, filenameFor i = filenameFor j → i = j) ∧
    ∃ new : List Call,
      (uploadHandler env s (.ok form)).2.calls = s.calls ++ new ∧
      ∀ (j : Nat) (file : String) (param : UploadParam),
        new[j]? = some (Call.Upload file param) →
        ∃ f, (form.file "files")[j]? = some f ∧
          file = EncodeToString (bytesOf f) ∧
          param = { FileName := Nat.repr j ++ ".jpg", Folder := "/MangaPlus" } := by
  refine ⟨⟨rfl, rfl, rfl⟩, filenameFor_eq, filenameFor_injective, ?_⟩
  have hcalls := uploadLoop_calls env s.ik (form.file "files") 0 []
  have key : ∀ (cs : List Call) (extra : List Call),
      (∀ j call, cs[j]? = some call →
        ∃ f, (form.file "files")[j]? = some f ∧ call = uploadCall (0 + j) f) →
      (∀ c ∈ extra, ∀ file param, c ≠ Call.Upload file param) →
      ∀ (j : Nat) (file : String) (param : UploadParam),
        (cs ++ extra)[j]? = some (Call.Upload file param) →
        ∃ f, (form.file "files")[j]? = some f ∧
          file = EncodeToString (bytesOf f) ∧
          param = { FileName := Nat.repr j ++ ".jpg", Folder := "/MangaPlus" } := by
    intro cs extra hcs hextra j file param hj
    rcases Nat.lt_or_ge j cs.length with hlt | hge
    · rw [List.getElem?_append_left hlt] at hj
      obtain ⟨f, hf, hcall⟩ := hcs j _ hj
      refine ⟨f, hf, ?_⟩
      simp only [uploadCall, Nat.zero_add, Call.Upload.injEq] at hcall
      exact hcall
    · rw [List.getElem?_append_right hge] at hj
      exact absurd rfl (hextra _ (List.getElem?_mem hj) file param)
  unfold uploadHandler
  cases hc : index0 (form.value "chapter_number") with
  | panic p => exact ⟨[], by simp [hc], by simp⟩
  | ret c =>
    cases hv : index0 (form.value "volume_number") with
    | panic p => exact ⟨[], by simp [hc, hv], by simp⟩
    | ret v =>
      cases hl : uploadLoop env s.ik 0 (form.file "files") [] with
      | mk cs fin =>
        rw [hl] at hcalls
        cases fin with
        | panic p =>
          refine ⟨cs ++ [], by simp [hc, hv, hl], key cs [] hcalls (by simp)⟩
        | abort resp =>
          refine ⟨cs ++ [], by simp [hc, hv, hl], key cs [] hcalls (by simp)⟩
        | done responses =>
          refine ⟨cs ++ [.InsertOne (Manga s.client) [("data", .docs responses),
            ("volume_number", .str v), ("chapter_number", .str c)]], ?_,
            key cs _ hcalls (by simp)⟩
          simp only [hc, hv, hl]
          split <;> simp

/-! ## Claims about `UploadFile` and start-up -/

/-- What `UploadFile` returns whenever the file gives a reader and the client is not
nil: the answer of the upload call alone. -/
theorem UploadFile_returns_upload_answer (env : Env) (file : FileHeader) (name : String)
    (k : ImageKit) (src : File) (hO : file.Open.1 = some src) :
    (UploadFile env file name (some k)).2 =
      .ret (env.Upload (EncodeToString src.ReadAll.1)
        { FileName := name, Folder := "/MangaPlus" }) := by
  unfold UploadFile
  simp only [hO]
  split <;> simp_all

/-- C5, evaluated: with a file whose read fails, and with a file whose open fails,
`UploadFile` uploads the bytes it has and returns the upload response with a nil error;
with a nil reader it panics.  In none of the three cases is the failure returned. -/
theorem UploadFile_drops_open_and_read_errors :
    UploadFile sampleEnv truncatedFile "0.jpg" sampleState.ik =
      ([.Upload "TQ==" ⟨"0.jpg", "/MangaPlus"⟩],
        .ret (.ok ⟨⟨"https://ik.example/MangaPlus/0.jpg", 1200, 800⟩⟩)) ∧
    UploadFile sampleEnv unopenedFile "0.jpg" sampleState.ik =
      ([.Upload "" ⟨"0.jpg", "/MangaPlus"⟩],
        .ret (.ok ⟨⟨"https://ik.example/MangaPlus/0.jpg", 1200, 800⟩⟩)) ∧
    UploadFile sampleEnv nilFile "0.jpg" sampleState.ik = ([], .panic .nilDereference) := by
  refine ⟨?_, ?_, ?_⟩ <;> rfl

/-- The start-up is fatal exactly when the connection to the document store fails. -/
theorem main_fatal_iff (Load : Option String) (New : Except String ImageKit)
    (Connect : Except String Client) (mangas : List Document) (e : String) :
    main Load New Connect mangas = .fatal e ↔ Connect = .error e := by
  cases Connect <;> simp [main, ConnectToMongoDB]

/-- C4, evaluated: when `imagekit.New` fails and `mongo.Connect` succeeds, `main` does
not terminate: it serves with a nil image-hosting client, and an upload of one file then
panics on the nil pointer. -/
theorem main_serves_without_image_client :
    main none (.error "missing private key") (.ok ⟨"mongodb://localhost"⟩) [] =
      .serving clientlessState ∧
    (uploadHandler sampleEnv clientlessState (.ok sampleForm)).1 = .panic .nilDereference := by
  refine ⟨?_, ?_⟩ <;> rfl

/-! ## Claims about the chapter route -/

theorem matchesFilter_query (v c : String) (d : Document) :
    matchesFilter [("chapter_number", .str c), ("volume_number", .str v)] d = true ↔
      isChapter v c d := by
  simp [matchesFilter, isChapter]

theorem FindOne_ok_iff (env : Env) (coll : List Document) (v c : String) :
    (∃ d, FindOne env coll [("chapter_number", .str c), ("volume_number", .str v)] = .ok d) ↔
      (env.findErr = none ∧ ∃ d ∈ coll, isChapter v c d) := by
  unfold FindOne
  cases hE : env.findErr with
  | some e => simp [hE]
  | none =>
    simp only [true_and]
    cases hF : coll.find? (matchesFilter [("chapter_number", .str c), ("volume_number", .str v)]) with
    | some d =>
      simp only [hE, hF, Except.ok.injEq, exists_eq', true_iff]
      exact ⟨d, List.mem_of_find?_eq_some hF, (matchesFilter_query v c d).1 (List.find?_some hF)⟩
    | none =>
      simp only [hE, hF, reduceCtorEq, exists_const, false_iff, not_exists, not_and]
      intro d hd hch
      have := List.find?_eq_none.1 hF d hd
      exact this ((matchesFilter_query v c d).2 hch)

theorem FindOne_ok_spec (env : Env) (coll : List Document) (v c : String) (d : Document)
    (h : FindOne env coll [("chapter_number", .str c), ("volume_number", .str v)] = .ok d) :
    d ∈ coll ∧ isChapter v c d := by
  unfold FindOne at h
  cases hE : env.findErr with
  | some e => simp [hE] at h
  | none =>
    simp only [hE] at h
    cases hF : coll.find? (matchesFilter [("chapter_number", .str c), ("volume_number", .str v)]) with
    | some d' =>
      simp only [hF, Except.ok.injEq] at h
      subst h
      exact ⟨List.mem_of_find?_eq_some hF, (matchesFilter_query v c d').1 (List.find?_some hF)⟩
    | none => simp [hF] at h

theorem FindOne_error_text (env : Env) (coll : List Document) (filter : Document)
    (e : String) (h : FindOne env coll filter = .error e) :
    e = env.findErr.getD ErrNoDocuments := by
  unfold FindOne at h
  cases hE : env.findErr with
  | some e' => simp [hE] at h; simp [h]
  | none =>
    simp only [hE] at h
    cases hF : coll.find? (matchesFilter filter) with
    | some d => simp [hF] at h
    | none => simp [hF] at h; simp [h]

/-- C3: the chapter handler answers 200 with body `chapter: d` exactly when the lookup
does not fail and the store holds a record whose `chapter_number` is c and whose
`volume_number` is v; the d it returns is then such a record of the store, as stored;
in every other case (query failure, or no such record) it answers 500 with the text of
the failure under `error`; and the slug changes neither the response nor the state. -/
theorem chapter_handler_response (env : Env) (s : State) (slug v c : String) :
    ((∃ d, (chapterHandler env s slug v c).1 = .ret ⟨200, [("chapter", .doc d)]⟩) ↔
      (env.findErr = none ∧ ∃ d ∈ s.mangas, isChapter v c d)) ∧
    (∀ d, (chapterHandler env s slug v c).1 = .ret ⟨200, [("chapter", .doc d)]⟩ →
      d ∈ s.mangas ∧ isChapter v c d) ∧
    (¬ (env.findErr = none ∧ ∃ d ∈ s.mangas, isChapter v c d) →
      (chapterHandler env s slug v c).1 =
        .ret ⟨500, [("error", .str (env.findErr.getD ErrNoDocuments))]⟩) ∧
    (∀ slug', chapterHandler env s slug' v c = chapterHandler env s slug v c) := by
  have hiff := FindOne_ok_iff env s.mangas v c
  refine ⟨?_, ?_, ?_, fun _ => rfl⟩
  · rw [← hiff]
    unfold chapterHandler
    cases hF : FindOne env s.mangas
        [("chapter_number", .str c), ("volume_number", .str v)] with
    | error e => simp [hF]
    | ok d => simp [hF]
  · intro d hd
    unfold chapterHandler at hd
    cases hF : FindOne env s.mangas
        [("chapter_number", .str c), ("volume_number", .str v)] with
    | error e => simp [hF] at hd
    | ok d' =>
      simp [hF] at hd
      subst hd
      exact FindOne_ok_spec env s.mangas v c d' hF
  · intro hno
    rw [← hiff] at hno
    unfold chapterHandler
    cases hF : FindOne env s.mangas
        [("chapter_number", .str c), ("volume_number", .str v)] with
    | error e =>
      simp only [hF]
      rw [FindOne_error_text env s.mangas _ e hF]
    | ok d => exact absurd ⟨d, hF⟩ hno

/-! ## Claims about the store -/

theorem uploadLoop_done_length (env : Env) (ik : Option ImageKit) (files : List FileHeader) :
    ∀ (n : Nat) (acc : List Entry) (cs : List Call) (responses : List Entry),
      uploadLoop env ik n files acc = (cs, .done responses) →
      responses.length = acc.length + files.length := by
  induction files with
  | nil =>
    intro n acc cs responses h
    simp only [uploadLoop, Prod.mk.injEq, LoopEnd.done.injEq] at h
    simp [← h.2]
  | cons f fs ih =>
    intro n acc cs responses h
    rw [uploadLoop] at h
    cases hU : UploadFile env f (filenameFor n) ik with
    | mk ucs o =>
      rw [hU] at h
      cases o with
      | panic p => simp at h
      | ret r =>
        cases r with
        | error e => simp at h
        | ok response =>
          simp only [Prod.mk.injEq] at h
          have := ih (n + 1) (acc ++ [manga_data response]) _ responses
            (Prod.ext rfl h.2)
          simp only [List.length_append, List.length_singleton] at this
          simp only [List.length_cons]
          omega

theorem uploadHandler_ok_inv (env : Env) (s : State) (parsed : Except String Form)
    (body : List (String × JSON))
    (h : (uploadHandler env s parsed).1 = .ret ⟨200, body⟩) :
    ∃ (form : Form) (entries : List Entry) (c v : String) (cs vs : List String),
      parsed = .ok form ∧
      form.value "chapter_number" = c :: cs ∧
      form.value "volume_number" = v :: vs ∧
      entries.length = (form.file "files").length ∧
      accepts env s.mangas = true ∧
      (uploadHandler env s parsed).2.mangas =
        s.mangas ++ [[("_id", .oid env.newId), ("data", .docs entries),
          ("volume_number", .str v), ("chapter_number", .str c)]] := by
  cases parsed with
  | error e => simp [uploadHandler] at h
  | ok form =>
    unfold uploadHandler at h ⊢
    cases hc : form.value "chapter_number" with
    | nil => simp [hc, index0] at h
    | cons c cs =>
      cases hv : form.value "volume_number" with
      | nil => simp [hc, hv, index0] at h
      | cons v vs =>
        cases hl : uploadLoop env s.ik 0 (form.file "files") [] with
        | mk calls fin =>
          cases fin with
          | panic p => simp [hc, hv, index0, hl] at h
          | abort resp =>
            have hab : ∀ (files : List FileHeader) (n : Nat) (acc : List Entry)
                (cs : List Call) (r : Response),
                uploadLoop env s.ik n files acc = (cs, .abort r) → r.status = 400 := by
              intro files
              induction files with
              | nil => intro n acc cs r h; simp [uploadLoop] at h
              | cons f fs ih =>
                intro n acc cs r h
                rw [uploadLoop] at h
                cases hU : UploadFile env f (filenameFor n) s.ik with
                | mk ucs o =>
                  rw [hU] at h
                  cases o with
                  | panic p => simp at h
                  | ret x =>
                    cases x with
                    | error e =>
                      simp only [Prod.mk.injEq, LoopEnd.abort.injEq] at h
                      rw [← h.2]
                    | ok response =>
                      simp only [Prod.mk.injEq] at h
                      exact ih (n + 1) _ _ r (Prod.ext rfl h.2)
            have h400 := hab _ _ _ _ _ hl
            simp only [hc, hv, index0, hl, Outcome.ret.injEq] at h
            rw [h] at h400
            simp at h400
          | done responses =>
            have hlen := uploadLoop_done_length env s.ik _ 0 [] calls responses hl
            simp only [List.length_nil, Nat.zero_add] at hlen
            simp only [hc, hv, index0, hl, InsertOne_record] at h ⊢
            cases ha : accepts env s.mangas with
            | false => simp [ha] at h
            | true =>
              exact ⟨form, responses, c, v, cs, vs, rfl, hc, hv, hlen, rfl, by simp⟩

theorem InsertOne_appends (env : Env) (coll : List Document) (document : Document) :
    ∃ added : List Document,
      (InsertOne env coll document).2 = coll ++ added ∧ added.length ≤ 1 := by
  unfold InsertOne
  cases env.insertErr with
  | some e => exact ⟨[], by simp, by simp⟩
  | none =>
    simp only
    split
    · exact ⟨[], by simp, by simp⟩
    · exact ⟨[_], rfl, by simp⟩

theorem uploadHandler_appends (env : Env) (s : State) (parsed : Except String Form) :
    ∃ added : List Document,
      (uploadHandler env s parsed).2.mangas = s.mangas ++ added ∧ added.length ≤ 1 := by
  cases parsed with
  | error e => exact ⟨[], by simp [uploadHandler], by simp⟩
  | ok form =>
    unfold uploadHandler
    cases hc : index0 (form.value "chapter_number") with
    | panic p => exact ⟨[], by simp [hc], by simp⟩
    | ret c =>
      cases hv : index0 (form.value "volume_number") with
      | panic p => exact ⟨[], by simp [hc, hv], by simp⟩
      | ret v =>
        cases hl : uploadLoop env s.ik 0 (form.file "files") [] with
        | mk cs fin =>
          cases fin with
          | panic p => exact ⟨[], by simp [hc, hv, hl], by simp⟩
          | abort resp => exact ⟨[], by simp [hc, hv, hl], by simp⟩
          | done responses =>
            obtain ⟨added, hadd, hlen⟩ := InsertOne_appends env s.mangas
              [("data", .docs responses), ("volume_number", .str v), ("chapter_number", .str c)]
            refine ⟨added, ?_, hlen⟩
            simp only [hc, hv, hl]
            split <;> simp_all

theorem handle_appends (env : Env) (s : State) (req : Request) :
    ∃ added : List Document,
      (handle env s req).2.mangas = s.mangas ++ added ∧ added.length ≤ 1 := by
  cases req with
  | ping => exact ⟨[], by simp [handle, pingHandler], by simp⟩
  | chapter slug v c =>
    refine ⟨[], ?_, by simp⟩
    simp only [handle, chapterHandler]
    split <;> simp
  | upload parsed => exact uploadHandler_appends env s parsed

/-- C7: a `POST /upload` answered 200 appends exactly one record to the collection and
keeps the records held before, whatever they are; two such requests with the same form
leave two separate records, with different `_id`, and the collection two longer; and no
request to any route changes or removes a held record: the collection after a request
is the collection before it followed by at most one new record. -/
theorem upload_success_appends_one_record :
    (∀ (env : Env) (s : State) (parsed : Except String Form) (body : List (String × JSON)),
      (uploadHandler env s parsed).1 = .ret ⟨200, body⟩ →
      ∃ d, (uploadHandler env s parsed).2.mangas = s.mangas ++ [d]) ∧
    (∀ (env₁ env₂ : Env) (s : State) (parsed : Except String Form)
      (b₁ b₂ : List (String × JSON)),
      (uploadHandler env₁ s parsed).1 = .ret ⟨200, b₁⟩ →
      (uploadHandler env₂ (uploadHandler env₁ s parsed).2 parsed).1 = .ret ⟨200, b₂⟩ →
      ∃ d₁ d₂,
        (uploadHandler env₂ (uploadHandler env₁ s parsed).2 parsed).2.mangas =
          s.mangas ++ [d₁, d₂] ∧
        d₁.lookup "_id" ≠ d₂.lookup "_id" ∧
        (uploadHandler env₂ (uploadHandler env₁ s parsed).2 parsed).2.mangas.length =
          s.mangas.length + 2) ∧
    (∀ (env : Env) (s : State) (req : Request),
      ∃ added : List Document,
        (handle env s req).2.mangas = s.mangas ++ added ∧ added.length ≤ 1) := by
  refine ⟨?_, ?_, handle_appends⟩
  · intro env s parsed body h
    obtain ⟨form, entries, c, v, cs, vs, -, -, -, -, -, hm⟩ :=
      uploadHandler_ok_inv env s parsed body h
    exact ⟨_, hm⟩
  · intro env₁ env₂ s parsed b₁ b₂ h₁ h₂
    obtain ⟨form₁, entries₁, c₁, v₁, cs₁, vs₁, -, -, -, -, -, hm₁⟩ :=
      uploadHandler_ok_inv env₁ s parsed b₁ h₁
    obtain ⟨form₂, entries₂, c₂, v₂, cs₂, vs₂, -, -, -, -, ha₂, hm₂⟩ :=
      uploadHandler_ok_inv env₂ _ parsed b₂ h₂
    rw [hm₁] at hm₂ ha₂
    refine ⟨[("_id", .oid env₁.newId), ("data", .docs entries₁), ("volume_number", .str v₁),
        ("chapter_number", .str c₁)],
      [("_id", .oid env₂.newId), ("data", .docs entries₂), ("volume_number", .str v₂),
        ("chapter_number", .str c₂)], by rw [hm₂]; simp, ?_, by rw [hm₂]; simp⟩
    simp only [accepts, Bool.and_eq_true, Bool.not_eq_true', List.any_append,
      Bool.or_eq_false_iff] at ha₂
    have hne := ha₂.2.2
    simp only [List.any_cons, List.any_nil, Bool.or_false, beq_eq_false_iff_ne] at hne
    intro heq
    apply hne
    rw [heq]
    simp [List.lookup]

theorem upload_success_appends_one_record_witness :
    ∃ d₁ d₂,
      (uploadHandler { sampleEnv with newId := 8 }
        (uploadHandler sampleEnv staleState (.ok sampleForm)).2 (.ok sampleForm)).2.mangas =
        [staleRecord] ++ [d₁, d₂] ∧
      d₁.lookup "_id" ≠ d₂.lookup "_id" ∧
      (uploadHandler { sampleEnv with newId := 8 }
        (uploadHandler sampleEnv staleState (.ok sampleForm)).2
        (.ok sampleForm)).2.mangas.length = 1 + 2 :=
  upload_success_appends_one_record.2.1 sampleEnv { sampleEnv with newId := 8 } staleState
    (.ok sampleForm) _ _ rfl rfl

/-! ## Claims about a read after a write -/

/-- C9, refuted as stated: the collection holds a record for volume `1`, chapter `5`
without images; a `POST /upload` of two files for volume `1`, chapter `5` is answered
200; the `GET` that follows is answered 200 with the older record, which has no image
entry. -/
theorem get_after_upload_returns_older_record :
    (sampleForm.file "files").length = 2 ∧
    (uploadHandler sampleEnv staleState (.ok sampleForm)).1 =
      .ret ⟨200, [("message", .str "success"), ("responses", .result ⟨.oid 7⟩)]⟩ ∧
    (chapterHandler sampleEnv (uploadHandler sampleEnv staleState (.ok sampleForm)).2
      "one-piece" "1" "5").1 = .ret ⟨200, [("chapter", .doc staleRecord)]⟩ ∧
    (imageEntries staleRecord).length = 0 ∧
    (imageEntries staleRecord).length ≠ (sampleForm.file "files").length := by
  refine ⟨rfl, rfl, rfl, rfl, ?_⟩
  decide

/-- C9, amended: when the collection holds no record for volume v, chapter c, a
`POST /upload` of N files with these identifiers is answered 200, and the lookup that
follows does not fail, the `GET` for volume v, chapter c, under any slug, is answered
200 with a document that has N image entries. -/
theorem get_after_upload_returns_new_record (envP envG : Env) (s : State) (form : Form)
    (slug c v : String) (cs vs : List String) (body : List (String × JSON))
    (hc : form.value "chapter_number" = c :: cs)
    (hv : form.value "volume_number" = v :: vs)
    (hok : (uploadHandler envP s (.ok form)).1 = .ret ⟨200, body⟩)
    (hfresh : ∀ d ∈ s.mangas, ¬ isChapter v c d)
    (hfind : envG.findErr = none) :
    ∃ d, (chapterHandler envG (uploadHandler envP s (.ok form)).2 slug v c).1 =
        .ret ⟨200, [("chapter", .doc d)]⟩ ∧
      (imageEntries d).length = (form.file "files").length := by
  obtain ⟨form', entries, c', v', cs', vs', hform, hc', hv', hlen, -, hm⟩ :=
    uploadHandler_ok_inv envP s (.ok form) body hok
  cases hform
  rw [hc] at hc'
  rw [hv] at hv'
  cases hc'
  cases hv'
  have hnone : s.mangas.find?
      (matchesFilter [("chapter_number", .str c), ("volume_number", .str v)]) = none := by
    rw [List.find?_eq_none]
    intro d hd hmatch
    exact hfresh d hd ((matchesFilter_query v c d).1 hmatch)
  refine ⟨[("_id", .oid envP.newId), ("data", .docs entries), ("volume_number", .str v),
    ("chapter_number", .str c)], ?_, ?_⟩
  · have hF : FindOne envG (uploadHandler envP s (.ok form)).2.mangas
        [("chapter_number", .str c), ("volume_number", .str v)] =
        .ok [("_id", .oid envP.newId), ("data", .docs entries), ("volume_number", .str v),
          ("chapter_number", .str c)] := by
      rw [hm]
      unfold FindOne
      simp only [hfind, List.find?_append, hnone, Option.none_or]
      have : matchesFilter [("chapter_number", .str c), ("volume_number", .str v)]
          [("_id", .oid envP.newId), ("data", .docs entries), ("volume_number", .str v),
            ("chapter_number", .str c)] = true := by
        rw [matchesFilter_query]
        simp [isChapter, List.lookup]
      simp [List.find?, this]
    unfold chapterHandler
    simp only [hF]
  · simp [imageEntries, List.lookup, hlen]

theorem get_after_upload_returns_new_record_witness :
    ∃ d, (chapterHandler sampleEnv (uploadHandler sampleEnv sampleState (.ok sampleForm)).2
        "one-piece" "1" "5").1 = .ret ⟨200, [("chapter", .doc d)]⟩ ∧
      (imageEntries d).length = (sampleForm.file "files").length :=
  get_after_upload_returns_new_record sampleEnv sampleEnv sampleState sampleForm
    "one-piece" "5" "1" [] [] _ rfl rfl rfl (by simp [sampleState]) rfl

/-! ## Claims about `GET /ping` -/

theorem run_append (reqs₁ : List (Env × Request)) :
    ∀ (s : State) (reqs₂ : List (Env × Request)),
      run s (reqs₁ ++ reqs₂) = run (run s reqs₁) reqs₂ := by
  induction reqs₁ with
  | nil => intro s reqs₂; rfl
  | cons er rest ih =>
    intro s reqs₂
    obtain ⟨env, req⟩ := er
    simp only [List.cons_append, run]
    exact ih _ _

theorem uploadHandler_err (env : Env) (s : State) (parsed : Except String Form) :
    (uploadHandler env s parsed).2.err = s.err := by
  cases parsed with
  | error e => rfl
  | ok form =>
    unfold uploadHandler
    cases hc : index0 (form.value "chapter_number") with
    | panic p => simp only [hc]
    | ret c =>
      cases hv : index0 (form.value "volume_number") with
      | panic p => simp only [hc, hv]
      | ret v =>
        cases hl : uploadLoop env s.ik 0 (form.file "files") [] with
        | mk cs fin =>
          cases fin with
          | panic p => simp only [hc, hv, hl]
          | abort resp => simp only [hc, hv, hl]
          | done responses =>
            simp only [hc, hv, hl]
            split <;> rfl

theorem chapterHandler_err (env : Env) (s : State) (slug v c : String) :
    (chapterHandler env s slug v c).2.err = lookupErr env s.mangas v c := by
  unfold chapterHandler lookupErr
  cases hF : FindOne env s.mangas [("chapter_number", .str c), ("volume_number", .str v)] with
  | error e => simp only [hF]
  | ok d => simp only [hF]

theorem run_err_without_lookup (reqs : List (Env × Request)) :
    ∀ s : State, (∀ er ∈ reqs, er.2.isLookup = false) → (run s reqs).err = s.err := by
  induction reqs with
  | nil => intro s _; rfl
  | cons er rest ih =>
    intro s h
    obtain ⟨env, req⟩ := er
    have hreq : req.isLookup = false := h (env, req) (List.mem_cons_self _ _)
    rw [run, ih _ (fun x hx => h x (List.mem_cons_of_mem _ hx))]
    cases req with
    | ping => rfl
    | chapter slug v c => simp [Request.isLookup] at hreq
    | upload parsed => exact uploadHandler_err env s parsed

/-- C10: `main` starts serving with the shared `err` nil; `GET /ping` always answers
200 with message `You reached the server` and, under `errors`, the current value of
that variable, and changes nothing; a chapter request sets the variable to the outcome
of its lookup (nil on a match, the lookup error otherwise); `POST /upload` never
changes it.  Hence, in a sequential run, the variable keeps its value while no chapter
lookup runs, and otherwise holds the outcome of the last chapter lookup. -/
theorem ping_reports_shared_err :
    (∀ (Load : Option String) (New : Except String ImageKit) (Connect : Except String Client)
      (mangas : List Document) (s : State),
      main Load New Connect mangas = .serving s → s.err = none) ∧
    (∀ (env : Env) (s : State),
      handle env s .ping =
        (.ret ⟨200, [("message", .str "You reached the server"), ("errors", .error s.err)]⟩,
          s)) ∧
    (∀ (env : Env) (s : State) (slug v c : String),
      (handle env s (.chapter slug v c)).2.err = lookupErr env s.mangas v c) ∧
    (∀ (env : Env) (s : State) (parsed : Except String Form),
      (handle env s (.upload parsed)).2.err = s.err) ∧
    (∀ (s : State) (reqs : List (Env × Request)),
      (∀ er ∈ reqs, er.2.isLookup = false) → (run s reqs).err = s.err) ∧
    (∀ (s : State) (before after : List (Env × Request)) (env : Env) (slug v c : String),
      (∀ er ∈ after, er.2.isLookup = false) →
      (run s (before ++ (env, .chapter slug v c) :: after)).err =
        lookupErr env (run s before).mangas v c) := by
  refine ⟨?_, fun _ _ => rfl, ?_, ?_, ?_, ?_⟩
  · intro Load New Connect mangas s h
    unfold main at h
    cases Connect with
    | error e => simp [ConnectToMongoDB] at h
    | ok client =>
      simp only [ConnectToMongoDB, Startup.serving.injEq] at h
      rw [← h]
  · intro env s slug v c
    exact chapterHandler_err env s slug v c
  · intro env s parsed
    exact uploadHandler_err env s parsed
  · intro s reqs h
    exact run_err_without_lookup reqs s h
  · intro s before after env slug v c h
    rw [run_append, run, run_err_without_lookup after _ h]
    exact chapterHandler_err env _ slug v c

theorem ping_reports_shared_err_witness :
    (run sampleState
      ([(sampleEnv, .ping)] ++ (sampleEnv, .chapter "one-piece" "1" "5") ::
        [(sampleEnv, .upload (.ok sampleForm)), (sampleEnv, .ping)])).err =
      some "mongo: no documents in result" :=
  (ping_reports_shared_err.2.2.2.2.2 sampleState [(sampleEnv, .ping)]
    [(sampleEnv, .upload (.ok sampleForm)), (sampleEnv, .ping)] sampleEnv "one-piece" "1" "5"
    (by decide)).trans rfl

end MangaPlus
